import Mathlib

/-!
Shallow embedding of the transcript-synthesis core of Open-LLM-webchat:
the batch session reconstruction (`src/utils/process_session.py`,
`load_sessions_history`) and the live streaming / non-streaming chat loop
(`src/utils/process_chat.py`, `get_response` and
`stop_agent_running_stream`), together with proofs about the behaviour the
specification describes.
-/

namespace OpenLLMWebchat

/-- Marker for the `metadata={"title": ...}` strings attached to tool display
entries.  The literal strings in process_chat.py and process_session.py
carry byte-distinct (differently mis-encoded) emoji prefixes followed by
" ToolCallStarted" / " ToolCallCompleted", so the live-path and session-path
titles are four pairwise distinct strings; they are modelled as four distinct
tags. -/
inductive TitleTag
  | chatStarted
  | chatCompleted
  | sessionStarted
  | sessionCompleted
deriving DecidableEq

/-- A `gradio.ChatMessage` as the repository uses it: a role string, a content
string and an optional metadata title. -/
structure PyChatMessage where
  role : String
  content : String
  title : Option TitleTag
deriving DecidableEq

/-- Content of a raw stored message: Python null, a string, or a list of
strings (the three shapes `load_sessions_history` handles).  An absent
"content" key defaults to `strc ""` (the code uses `msg.get("content", "")`). -/
inductive MsgContent
  | nullc
  | strc (s : String)
  | listc (xs : List String)
deriving DecidableEq

/-- One raw message record of a stored run (the `msg.get(...)` fields read by
`load_sessions_history`).  `tool_args` is modelled by its rendered string
form, which is all the code uses it for (f-string interpolation). -/
structure RawMessage where
  role : Option String
  content : MsgContent
  tool_name : Option String
  tool_args : Option String
  tool_call_id : Option String
deriving DecidableEq

/-- One stored run event, as read by the timing scan of
`load_sessions_history`: the event name, the `tool` payload's optional
`tool_call_id`, and the unix timestamp `created_at`.  Timestamps and
durations are floats of seconds in the source; they are modelled as exact
integer microsecond counts (every concrete time in the specification's
claims is exact on that grid), so one model second is 1000000. -/
structure SessionEvent where
  event : String
  tool_call_id : Option String
  created_at : ℤ
deriving DecidableEq

/-- One stored run: its `messages` and `events` arrays. -/
structure Run where
  messages : List RawMessage
  events : List SessionEvent
deriving DecidableEq

/-- Python string interpolation of a possibly absent value: `None` renders as
the string "None". -/
def pyStr (v : Option String) : String := v.getD "None"

/-- Insert or overwrite the binding of `k` in an association list, keeping
first-insertion order (dict update semantics). -/
def setAssoc (acc : List (String × Option ℤ × Option ℤ)) (k : String)
    (v : Option ℤ × Option ℤ) : List (String × Option ℤ × Option ℤ) :=
  match acc with
  | [] => [(k, v)]
  | (k2, v2) :: rest => if k2 = k then (k, v) :: rest else (k2, v2) :: setAssoc rest k v

/-- One step of the `tool_times` scan (process_session.py lines 163-175): an
event whose `tool_call_id` is absent or empty (falsy) is skipped; any other
event with an id creates its entry, and a ToolCallStarted / ToolCallCompleted
event overwrites the start / end bound with the event timestamp. -/
def updateToolTimes (acc : List (String × Option ℤ × Option ℤ)) (e : SessionEvent) :
    List (String × Option ℤ × Option ℤ) :=
  match e.tool_call_id with
  | none => acc
  | some tid =>
    if tid = "" then acc
    else
      let cur := (List.lookup tid acc).getD (none, none)
      let upd :=
        if e.event = "ToolCallStarted" then (some e.created_at, cur.2)
        else if e.event = "ToolCallCompleted" then (cur.1, some e.created_at)
        else cur
      setAssoc acc tid upd

/-- The `tool_times` mapping built from a run's events. -/
def buildToolTimes (events : List SessionEvent) : List (String × Option ℤ × Option ℤ) :=
  events.foldl updateToolTimes []

/-- Left-pad a digit string with zeros to width `w`. -/
def padZeros (w : Nat) (s : String) : String :=
  String.mk (List.replicate (w - s.length) '0') ++ s

/-- Round the exact quotient `a / b` (b positive) to the nearest integer,
halves up: the floor of `a / b + 1/2`. -/
def roundHalfUpDiv (a b : ℤ) : ℤ := Int.fdiv (2 * a + b) (2 * b)

/-- Python fixed-point formatting `f"{x:.{prec}f}"` of a duration of `x`
microseconds, as a count of seconds with `prec` digits after the point.
Rounding is half-up where Python rounds the underlying float half-to-even;
every concrete duration formatted in this development is an exact multiple of
`10 ^ (-prec)` seconds, so no tie-breaking behaviour is exercised. -/
def fmtFixed (prec : Nat) (x : ℤ) : String :=
  let n : ℤ := roundHalfUpDiv (x * ((10 ^ prec : ℕ) : ℤ)) ((10 ^ 6 : ℕ) : ℤ)
  let sign := if n < 0 then "-" else ""
  let m := n.natAbs
  sign ++ toString (m / 10 ^ prec) ++ "." ++ padZeros prec (toString (m % 10 ^ prec))

/-- The `exec_time` string computed for a tool message in
`load_sessions_history` (lines 186-191): "N/A" unless the message's
`tool_call_id` is a key of `tool_times` with both bounds present, in which
case `f"{end - start:.3f}s"`. -/
def execTime (times : List (String × Option ℤ × Option ℤ)) (tcid : Option String) : String :=
  match tcid with
  | none => "N/A"
  | some tid =>
    match List.lookup tid times with
    | some (some s, some e) => fmtFixed 3 (e - s) ++ "s"
    | some _ => "N/A"
    | none => "N/A"

/-- Python `str.strip()`: drop leading and trailing whitespace characters. -/
def pyStrip (s : String) : String :=
  String.mk (((s.data.dropWhile Char.isWhitespace).reverse.dropWhile Char.isWhitespace).reverse)

/-- Content normalisation in the tool branch of `load_sessions_history`
(lines 206-209): a list is joined with newlines (truthy items only, each
stripped), a non-string becomes Python `str(...)` (null renders "None"), a
string is kept. -/
def toolContentText (c : MsgContent) : String :=
  match c with
  | .listc xs => String.intercalate "\n" ((xs.filter (fun i => i ≠ "")).map pyStrip)
  | .strc s => s
  | .nullc => "None"

/-- The `result_text` for a tool message (line 210):
`content.strip() if content else ""`. -/
def resultText (c : MsgContent) : String :=
  let t := toolContentText c
  if t = "" then "" else pyStrip t

/-- Content of the synthetic ToolCallStarted entry emitted by
`load_sessions_history` (lines 194-196). -/
def toolStartedContentB (m : RawMessage) : String :=
  "\n**Tool:** `" ++ pyStr m.tool_name ++ "`\n**Arguments:** `" ++ pyStr m.tool_args ++ "`\n"

/-- Content of the synthetic ToolCallCompleted entry emitted by
`load_sessions_history` (lines 211-213). -/
def toolCompletedContentB (times : List (String × Option ℤ × Option ℤ))
    (m : RawMessage) : String :=
  "**Results:**\n" ++ resultText m.content ++ "\n**Execution time:** " ++ execTime times m.tool_call_id

/-- Append one space to the content of the first assistant-role entry of a
list (used on the reversed history, i.e. the most recent assistant entry). -/
def addSpaceFirstAssistant : List PyChatMessage → List PyChatMessage
  | [] => []
  | m :: rest =>
    if m.role = "assistant" then ⟨m.role, m.content ++ " ", m.title⟩ :: rest
    else m :: addSpaceFirstAssistant rest

/-- The per-message LaTeX re-render pass of `load_sessions_history`
(lines 229-234): when latex mode is "ON", append one space to the content of
the most recent assistant entry, if any.  This block sits inside the
per-message loop, so it runs once after every processed message. -/
def latexPass (latexRadio : String) (h : List PyChatMessage) : List PyChatMessage :=
  if latexRadio = "ON" then (addSpaceFirstAssistant h.reverse).reverse else h

/-- Processing of one raw message in the reconstruction loop of
`load_sessions_history` (lines 177-234), including the per-message LaTeX
pass.  A user/assistant message whose content is a list makes the final
dedup pass raise TypeError (a list is unhashable as part of the seen-set
key), which the enclosing handler turns into an empty result; that outcome
is modelled by the error branch. -/
def msgStep (metadataRadio latexRadio : String)
    (times : List (String × Option ℤ × Option ℤ))
    (hist : List PyChatMessage) (msg : RawMessage) :
    Except Unit (List PyChatMessage) :=
  let appended : Except Unit (List PyChatMessage) :=
    if metadataRadio = "ON" ∧ msg.role = some "tool" then
      .ok (hist ++ [⟨"assistant", toolStartedContentB msg, some TitleTag.sessionStarted⟩,
                    ⟨"assistant", toolCompletedContentB times msg, some TitleTag.sessionCompleted⟩])
    else if msg.role = some "user" ∨ msg.role = some "assistant" then
      match msg.content with
      | .listc _ => .error ()
      | .nullc => .ok (hist ++ [⟨msg.role.getD "", "", none⟩])
      | .strc s => .ok (hist ++ [⟨msg.role.getD "", s, none⟩])
    else .ok hist
  match appended with
  | .error e => .error e
  | .ok h => .ok (latexPass latexRadio h)

/-- Fold of `msgStep` over one run's messages. -/
def processMessages (metadataRadio latexRadio : String)
    (times : List (String × Option ℤ × Option ℤ)) :
    List PyChatMessage → List RawMessage → Except Unit (List PyChatMessage)
  | hist, [] => .ok hist
  | hist, m :: ms =>
    match msgStep metadataRadio latexRadio times hist m with
    | .error e => .error e
    | .ok h2 => processMessages metadataRadio latexRadio times h2 ms

/-- Fold over the stored runs: each run rebuilds its own `tool_times` from its
own events (lines 159-175). -/
def processRuns (metadataRadio latexRadio : String) :
    List PyChatMessage → List Run → Except Unit (List PyChatMessage)
  | hist, [] => .ok hist
  | hist, r :: rs =>
    match processMessages metadataRadio latexRadio (buildToolTimes r.events) hist r.messages with
    | .error e => .error e
    | .ok h2 => processRuns metadataRadio latexRadio h2 rs

/-- Key of the duplicate-removal pass: the `(msg.role, msg.content)` pair;
metadata (the title) is not part of the key. -/
def dkey (m : PyChatMessage) : String × String := (m.role, m.content)

/-- Worker of the duplicate-removal pass, carrying the `seen` set. -/
def dedupeGo (seen : List (String × String)) : List PyChatMessage → List PyChatMessage
  | [] => []
  | m :: ms =>
    if dkey m ∈ seen then dedupeGo seen ms
    else m :: dedupeGo (dkey m :: seen) ms

/-- The duplicate-removal pass at the end of `load_sessions_history`
(lines 236-243): keep the first occurrence of each `(role, content)` pair,
preserving order. -/
def dedupe (l : List PyChatMessage) : List PyChatMessage := dedupeGo [] l

/-- Reference reading of the deduplication sentence of the specification:
retain the first occurrence of each distinct `(role, content)` pair by
keeping the head and dropping every later entry with the same key. -/
def keepFirst : List PyChatMessage → List PyChatMessage
  | [] => []
  | m :: ms => m :: keepFirst (ms.filter (fun x => decide (dkey x ≠ dkey m)))
termination_by l => l.length
decreasing_by
  simp only [List.length_cons]
  exact Nat.lt_succ_of_le (List.length_filter_le _ _)

/-- Outcome of the database fetch plus the double JSON decode of the `runs`
column (lines 137-156 and the exception handlers at 247-252). -/
inductive StoreResult
  | storeError
  | noRow
  | emptyText
  | malformed
  | decoded (rs : List Run)

/-- `load_sessions_history` (process_session.py lines 91-252) with the
database interaction abstracted into a `StoreResult`.  Only the chat-history
component of the returned pair is modelled (the companion height update
carries no transcript data).  Every failure path - sqlite error, absent row,
empty column, unparsable JSON, or the TypeError raised by the dedup pass on
an unhashable key - returns the empty history through the handlers. -/
def load_sessions_history (metadataRadio latexRadio : String) (store : StoreResult) :
    List PyChatMessage :=
  match store with
  | .storeError => []
  | .noRow => []
  | .emptyText => []
  | .malformed => []
  | .decoded rs =>
    match processRuns metadataRadio latexRadio [] rs with
    | .error _ => []
    | .ok h => dedupe h

/-- One streaming chunk of `agent.arun(..., stream=True)` as read by the
event loop of `get_response`: the event name, the textual content when
`chunk.content` is a string (`none` models a non-string content), the
`chunk.tool` fields the handlers read, the optional
`chunk.tool.metrics.duration` in microseconds (`none` models a falsy metrics
object), and the run id. -/
structure Chunk where
  event : String
  content : Option String
  tool_name : String
  tool_args : String
  tool_result : String
  metrics : Option ℤ
  run_id : String
deriving DecidableEq

/-- Content of the ToolCallStarted entry appended by the streaming path
(process_chat.py lines 169-172). -/
def toolStartedContentL (ch : Chunk) : String :=
  "\n**Tool:** `" ++ ch.tool_name ++ "`\n**Arguments:** `" ++ ch.tool_args ++ "`\n"

/-- Content of the ToolCallCompleted entry appended by the streaming path
(lines 195-198).  The conditional expression covers the whole concatenation
of the two f-strings, so a falsy metrics object selects the bare
"**Execution time:** N/A\n" literal and the result text is dropped. -/
def toolCompletedContentL (ch : Chunk) : String :=
  match ch.metrics with
  | some d =>
    "\n**Results:** \n" ++ ch.tool_result ++ "\n**Execution time:** " ++ fmtFixed 4 d ++ "s"
  | none => "**Execution time:** N/A\n"

/-- Mutable state of the streaming loop of `get_response`: the transcript
being built (`chat_history`) and the `stream_response` accumulation buffer. -/
structure LiveState where
  history : List PyChatMessage
  buffer : String
deriving DecidableEq

/-- `chat_history[-1] = m`.  The chat flow keeps the history nonempty; on the
empty list this model returns `[m]` where Python would raise IndexError. -/
def setLast (l : List PyChatMessage) (m : PyChatMessage) : List PyChatMessage :=
  l.dropLast ++ [m]

/-- The literal placeholder content appended with the user turn (line 94). -/
def placeholderText : String := "### ..."

/-- Lines 164-165 and 192-193: replace the trailing "### ..." placeholder by
an empty assistant entry if it is still the last entry. -/
def replacePlaceholder (l : List PyChatMessage) : List PyChatMessage :=
  match l.getLast? with
  | some m => if m.content = placeholderText then setLast l ⟨"assistant", "", none⟩ else l
  | none => l

/-- One iteration of the streaming event loop (lines 154-232): the updated
state together with the transcript snapshots yielded during the iteration. -/
def stepL (metadataRadio : String) (st : LiveState) (ch : Chunk) :
    LiveState × List (List PyChatMessage) :=
  if ch.event = "ToolCallStarted" then
    let buf := st.buffer ++ "\n"
    if metadataRadio = "ON" then
      let h1 := replacePlaceholder st.history
      let h2 := h1 ++ [⟨"assistant", toolStartedContentL ch, some TitleTag.chatStarted⟩]
      (⟨h2, buf ++ "\n"⟩, [h2])
    else (⟨st.history, buf⟩, [])
  else if ch.event = "ToolCallCompleted" then
    if metadataRadio = "ON" then
      let h1 := replacePlaceholder st.history
      let h2 := h1 ++ [⟨"assistant", toolCompletedContentL ch, some TitleTag.chatCompleted⟩,
                       ⟨"assistant", "", none⟩]
      (⟨h2, ""⟩, [h2])
    else (st, [])
  else if ch.event = "RunContent" then
    match ch.content with
    | some s =>
      let buf := st.buffer ++ s
      let h := setLast st.history ⟨"assistant", buf, none⟩
      (⟨h, buf⟩, [h])
    | none => (st, [])
  else (st, [])

/-- State component of one streaming iteration. -/
def stepState (metadataRadio : String) (st : LiveState) (ch : Chunk) : LiveState :=
  (stepL metadataRadio st ch).1

/-- The streaming branch of `get_response` on a fresh conversation: the user
message and the "### ..." placeholder are appended (lines 93-94), then the
chunk stream is folded through the event loop. -/
def liveRun (metadataRadio : String) (userMsg : String) (chunks : List Chunk) : LiveState :=
  chunks.foldl (stepState metadataRadio)
    ⟨[⟨"user", userMsg, none⟩, ⟨"assistant", placeholderText, none⟩], ""⟩

/-- The generic error text of the exception handler (line 327). -/
def errorMessageText : String := "An error occurred while processing your request."

/-- The exception handler of `get_response` (lines 321-335): the trailing
transcript entry is replaced by the generic error entry, and a final snapshot
is yielded instead of re-raising. -/
def errorStepHistory (h : List PyChatMessage) : List PyChatMessage :=
  setLast h ⟨"assistant", errorMessageText, none⟩

/-- A streaming run whose agent invocation raises after the given chunks were
consumed: the handler yields one final transcript instead of propagating the
exception.  The function is total - no error escapes it. -/
def liveRunWithFailure (metadataRadio : String) (userMsg : String) (chunks : List Chunk) :
    List PyChatMessage :=
  errorStepHistory (liveRun metadataRadio userMsg chunks).history

/-- One message of a non-streaming `agent.arun` response (the agno message
fields the non-streaming branch reads; `content` is absent or a string). -/
structure NSMessage where
  role : String
  content : Option String
  tool_name : Option String
  tool_args : Option String
deriving DecidableEq

/-- The `result_text` of the non-streaming tool branch (line 276):
`message.content.strip() if message.content else ""`. -/
def resultTextNS (c : Option String) : String :=
  match c with
  | none => ""
  | some s => if s = "" then "" else pyStrip s

/-- Suffix of `agent_response.messages` strictly after the last message whose
role is "user" (lines 251-258 and 297-304; when no user message exists the
whole list is kept, matching the `default=-1` slice). -/
def afterLastUser (msgs : List NSMessage) : List NSMessage :=
  (msgs.reverse.takeWhile (fun m => !(m.role == "user"))).reverse

/-- Processing of one post-user response message in the non-streaming branch
(lines 258-310).  With metadata ON a tool message yields the two synthetic
entries (execution time is the constant "N/A" there), an assistant message is
appended as-is; with metadata OFF only assistant messages are appended.  No
branch ever appends a user-role entry. -/
def nsMsgStep (metadataRadio : String) (hist : List PyChatMessage) (m : NSMessage) :
    List PyChatMessage :=
  if metadataRadio = "ON" then
    if m.role = "tool" then
      hist ++ [⟨"assistant",
                "\n**Tool:** `" ++ pyStr m.tool_name ++ "`\n**Arguments:** `" ++
                  pyStr m.tool_args ++ "`\n",
                some TitleTag.chatStarted⟩,
               ⟨"assistant",
                "**Results:**\n" ++ resultTextNS m.content ++ "\n**Execution time:** N/A",
                some TitleTag.chatCompleted⟩]
    else if m.role = "assistant" then
      hist ++ [⟨"assistant", m.content.getD "", none⟩]
    else hist
  else
    if m.role = "assistant" then hist ++ [⟨"assistant", m.content.getD "", none⟩]
    else hist

/-- The non-streaming branch of `get_response` (lines 235-310): placeholder
replacement, then the messages after the last user message are folded in. -/
def nonStreamRun (metadataRadio : String) (hist : List PyChatMessage)
    (msgs : List NSMessage) : List PyChatMessage :=
  (afterLastUser msgs).foldl (nsMsgStep metadataRadio) (replacePlaceholder hist)

/-- The module-level globals of process_chat.py (lines 18-20): one
process-wide agent handle and one current run id, shared by every
conversation and user session.  The handle is tagged with the conversation
that registered it so that cancellation effects can be attributed. -/
structure Globals where
  running_agent : Option String
  current_run_id : Option String
deriving DecidableEq

/-- `get_response` registering its agent as the running one (line 125) and
recording the run id of the latest chunk (line 154), for the generation of
conversation `conv` with run id `runId`.  Whatever any other conversation had
stored is overwritten. -/
def startGeneration (conv runId : String) (_g : Globals) : Globals :=
  ⟨some conv, some runId⟩

/-- `stop_agent_running_stream` (lines 342-348): when an agent handle is
present, issue `cancel_run(run_id=current_run_id)` against it and clear the
handle; the second component is the issued cancellation as the pair of the
conversation owning the cancelled agent and the cancelled run id.  With no
handle present nothing happens. -/
def stop_agent_running_stream (g : Globals) : Globals × Option (String × Option String) :=
  match g.running_agent with
  | none => (g, none)
  | some conv => (⟨none, g.current_run_id⟩, some (conv, g.current_run_id))

/-! Concrete inputs used by the counterexamples and witnesses. -/

/-- Stored record of the scenario of the specification: a user turn, one tool
call with result "r" bracketed by events at t=0 and t=1s, and a final
assistant answer. -/
def c1Record : Run :=
  ⟨[⟨some "user", .strc "hi", none, none, none⟩,
    ⟨some "tool", .strc "r", some "search", some "q=x", some "1"⟩,
    ⟨some "assistant", .strc "found it", none, none, none⟩],
   [⟨"ToolCallStarted", some "1", 0⟩, ⟨"ToolCallCompleted", some "1", 1000000⟩]⟩

/-- Chunk stream equivalent to `c1Record`: the tool-call bracketing with a
1-second duration, then the final content. -/
def c1Chunks : List Chunk :=
  [⟨"ToolCallStarted", none, "search", "q=x", "", none, "run1"⟩,
   ⟨"ToolCallCompleted", none, "search", "q=x", "r", some 1000000, "run1"⟩,
   ⟨"RunContent", some "found it", "", "", "", none, "run1"⟩]

/-- Stored record with the same message list as `c1Record`, used for the
metadata-OFF reconstruction scenario. -/
def c6Record : Run :=
  ⟨[⟨some "user", .strc "hi", none, none, none⟩,
    ⟨some "tool", .strc "r", some "search", some "q=x", some "1"⟩,
    ⟨some "assistant", .strc "found it", none, none, none⟩],
   [⟨"ToolCallStarted", some "1", 0⟩, ⟨"ToolCallCompleted", some "1", 1000000⟩]⟩

/-- Stored record with two distinct assistant messages, for the LaTeX
trailing-space pass. -/
def c9Record : Run :=
  ⟨[⟨some "assistant", .strc "a", none, none, none⟩,
    ⟨some "assistant", .strc "b", none, none, none⟩],
   []⟩

/-- Chunk stream producing partial content and then an (unfinished) tool
call, after which the agent raises. -/
def c4Chunks : List Chunk :=
  [⟨"RunContent", some "Hello", "", "", "", none, "r1"⟩,
   ⟨"ToolCallStarted", none, "t", "a", "", none, "r1"⟩]

/-! ## C2 - Timing correctness -/

/-- Claim C2: with events ToolCallStarted(id="A", t=10s) and
ToolCallCompleted(id="A", t=12.5s) - timestamps in model microseconds - the
batch reconstruction formats the execution time of tool "A" as "2.500s", and
with either event missing it formats "N/A". -/
theorem claim2_timing :
    execTime (buildToolTimes
        [⟨"ToolCallStarted", some "A", 10000000⟩, ⟨"ToolCallCompleted", some "A", 12500000⟩])
      (some "A") = "2.500s"
    ∧ execTime (buildToolTimes [⟨"ToolCallStarted", some "A", 10000000⟩]) (some "A") = "N/A"
    ∧ execTime (buildToolTimes [⟨"ToolCallCompleted", some "A", 12500000⟩]) (some "A") = "N/A" := by
  decide

/-! ## C1 - Live/replay equivalence -/

/-- Claim C1 fails on the code: for the stored record `c1Record` with
metadata display enabled, the batch reconstruction does not equal the final
live transcript of the equivalent chunk stream, even after erasing the
transient "### ..." placeholder entries; in particular the batch-formatted
ToolCallCompleted content ("**Results:**" without leading newline, duration
with 3 decimals) appears nowhere in the live transcript, whose completed
entry reads "\n**Results:** \n...{duration:.4f}s". -/
theorem claim1_counterexample :
    load_sessions_history "ON" "OFF" (.decoded [c1Record])
      = [⟨"user", "hi", none⟩,
         ⟨"assistant", "\n**Tool:** `search`\n**Arguments:** `q=x`\n",
          some TitleTag.sessionStarted⟩,
         ⟨"assistant", "**Results:**\nr\n**Execution time:** 1.000s",
          some TitleTag.sessionCompleted⟩,
         ⟨"assistant", "found it", none⟩]
    ∧ (liveRun "ON" "hi" c1Chunks).history
      = [⟨"user", "hi", none⟩, ⟨"assistant", "", none⟩,
         ⟨"assistant", "\n**Tool:** `search`\n**Arguments:** `q=x`\n",
          some TitleTag.chatStarted⟩,
         ⟨"assistant", "\n**Results:** \nr\n**Execution time:** 1.0000s",
          some TitleTag.chatCompleted⟩,
         ⟨"assistant", "found it", none⟩]
    ∧ ((liveRun "ON" "hi" c1Chunks).history.filter
        (fun m => decide (m.content ≠ placeholderText)))
        ≠ load_sessions_history "ON" "OFF" (.decoded [c1Record])
    ∧ ("**Results:**\nr\n**Execution time:** 1.000s" : String)
        ≠ "\n**Results:** \nr\n**Execution time:** 1.0000s" := by
  decide

/-! ## C3 - Cancellation isolation -/

/-- Claim C3 fails on the code: the running-generation handle is the pair of
module-level globals `running_agent` / `current_run_id`, shared process-wide.
Starting generation G1 for conversation C1 and then G2 for conversation C2
overwrites C1's registration, and the subsequent cancellation request - made
on behalf of C1 - cancels C2's run G2 and clears C2's handle, so C2's
controller state and in-flight stream are affected. -/
theorem claim3_counterexample :
    startGeneration "C2" "G2" (startGeneration "C1" "G1" ⟨none, none⟩)
        = ⟨some "C2", some "G2"⟩
    ∧ stop_agent_running_stream
        (startGeneration "C2" "G2" (startGeneration "C1" "G1" ⟨none, none⟩))
        = (⟨none, some "G2"⟩, some ("C2", some "G2")) := by
  decide

/-! ## C4 - Generation failure handling -/

/-- Claim C4 fails on the code in its discard clause: when the agent raises
after streaming the fragment "Hello" and a tool-call start (metadata ON), the
handler replaces only the trailing entry (the tool entry) with the generic
error entry; the partial content "Hello", already finalized into an earlier
assistant entry, is preserved, not discarded. -/
theorem claim4_counterexample :
    liveRunWithFailure "ON" "hi" c4Chunks
      = [⟨"user", "hi", none⟩, ⟨"assistant", "Hello", none⟩,
         ⟨"assistant", errorMessageText, none⟩]
    ∧ ⟨"assistant", "Hello", none⟩ ∈ liveRunWithFailure "ON" "hi" c4Chunks := by
  decide

/-! ## C6 - User messages in batch reconstruction -/

/-- Claim C6 fails on the code: `load_sessions_history` re-emits user
messages (its `elif role in ["user", "assistant"]` branch), so reconstructing
the record [user:"hi", tool(search), assistant:"found it"] with metadata OFF
yields [user:"hi", assistant:"found it"], not the single assistant entry. -/
theorem claim6_counterexample :
    load_sessions_history "OFF" "OFF" (.decoded [c6Record])
      = [⟨"user", "hi", none⟩, ⟨"assistant", "found it", none⟩]
    ∧ load_sessions_history "OFF" "OFF" (.decoded [c6Record])
        ≠ [⟨"assistant", "found it", none⟩] := by
  decide

/-! ## C9 - LaTeX trailing-space pass -/

/-- Claim C9 fails on the code: the trailing-space pass runs once per
processed message (inside the message loop, before deduplication), so for the
record with assistant messages "a" and "b" the normalized reconstruction is
[assistant:"a ", assistant:"b "] - it differs from the non-normalized
[assistant:"a", assistant:"b"] on the first (non-last) entry as well, not
only by a single trailing character on the last assistant entry. -/
theorem claim9_counterexample :
    load_sessions_history "OFF" "ON" (.decoded [c9Record])
      = [⟨"assistant", "a ", none⟩, ⟨"assistant", "b ", none⟩]
    ∧ load_sessions_history "OFF" "OFF" (.decoded [c9Record])
        = [⟨"assistant", "a", none⟩, ⟨"assistant", "b", none⟩]
    ∧ load_sessions_history "OFF" "ON" (.decoded [c9Record])
        ≠ [⟨"assistant", "a", none⟩, ⟨"assistant", "b ", none⟩] := by
  decide

/-! ## C5 - Deduplication -/

lemma dedupeGo_eq_keepFirst (l : List PyChatMessage) :
    ∀ seen, dedupeGo seen l = keepFirst (l.filter (fun x => decide (dkey x ∉ seen))) := by
  induction l with
  | nil => intro seen; simp [dedupeGo, keepFirst]
  | cons m ms ih =>
    intro seen
    by_cases hm : dkey m ∈ seen
    · simp [dedupeGo, List.filter_cons, hm, ih]
    · have hfilter :
          ms.filter (fun x => decide (dkey x ∉ dkey m :: seen))
            = (ms.filter (fun x => decide (dkey x ∉ seen))).filter
                (fun x => decide (dkey x ≠ dkey m)) := by
        rw [List.filter_filter]
        refine List.filter_congr ?_
        intro a _
        by_cases h1 : dkey a = dkey m <;> by_cases h2 : dkey a ∈ seen <;>
          simp [h1, h2]
      simp [dedupeGo, List.filter_cons, hm, keepFirst, ih, hfilter]

lemma dedupe_eq_keepFirst (l : List PyChatMessage) : dedupe l = keepFirst l := by
  rw [dedupe, dedupeGo_eq_keepFirst]
  simp

lemma keepFirst_sublist : ∀ l : List PyChatMessage, (keepFirst l).Sublist l := by
  intro l
  induction l using keepFirst.induct with
  | case1 => simp [keepFirst]
  | case2 m ms ih =>
    rw [keepFirst]
    exact (ih.trans (List.filter_sublist ms)).cons₂ m

lemma keepFirst_idem : ∀ l : List PyChatMessage, keepFirst (keepFirst l) = keepFirst l := by
  intro l
  induction l using keepFirst.induct with
  | case1 => simp [keepFirst]
  | case2 m ms ih =>
    rw [keepFirst, keepFirst]
    have hself :
        (keepFirst (ms.filter (fun x => decide (dkey x ≠ dkey m)))).filter
            (fun x => decide (dkey x ≠ dkey m))
          = keepFirst (ms.filter (fun x => decide (dkey x ≠ dkey m))) := by
      refine List.filter_eq_self.mpr ?_
      intro a ha
      have hmem : a ∈ ms.filter (fun x => decide (dkey x ≠ dkey m)) :=
        (keepFirst_sublist (ms.filter (fun x => decide (dkey x ≠ dkey m)))).subset ha
      have hp := List.of_mem_filter hmem
      exact hp
    rw [hself, ih]

/-- Claim C5: the duplicate-removal pass of `load_sessions_history` returns
the subsequence keeping only the first occurrence of each distinct
`(role, content)` pair in original order (equal to the specification's
first-occurrence filter `keepFirst`), it is idempotent, it never reorders
surviving entries (the result is a sublist of the input), and metadata
differences do not make two entries distinct. -/
theorem claim5_dedupe_props (x : List PyChatMessage) :
    dedupe (dedupe x) = dedupe x
    ∧ (dedupe x).Sublist x
    ∧ dedupe x = keepFirst x
    ∧ ∀ (r c : String) (t t2 : Option TitleTag),
        dedupe [⟨r, c, t⟩, ⟨r, c, t2⟩] = [⟨r, c, t⟩] := by
  refine ⟨?_, ?_, dedupe_eq_keepFirst x, ?_⟩
  · rw [dedupe_eq_keepFirst, dedupe_eq_keepFirst]
    exact keepFirst_idem x
  · rw [dedupe_eq_keepFirst]
    exact keepFirst_sublist x
  · intro r c t t2
    simp [dedupe, dedupeGo, dkey]

/-! ## C7 - Error policy of session loading -/

/-- Claim C7: every failure path of `load_sessions_history` - database error,
absent row, empty runs column, unparsable JSON - produces the empty
transcript, and even an internal processing failure (the TypeError the dedup
pass raises on an unhashable key) is absorbed into the empty transcript; the
model function is total, so no exception reaches the caller. -/
theorem claim7_error_policy (metadataRadio latexRadio : String) :
    load_sessions_history metadataRadio latexRadio .storeError = []
    ∧ load_sessions_history metadataRadio latexRadio .noRow = []
    ∧ load_sessions_history metadataRadio latexRadio .emptyText = []
    ∧ load_sessions_history metadataRadio latexRadio .malformed = []
    ∧ ∀ rs, processRuns metadataRadio latexRadio [] rs = .error ()
        → load_sessions_history metadataRadio latexRadio (.decoded rs) = [] := by
  refine ⟨rfl, rfl, rfl, rfl, ?_⟩
  intro rs h
  rw [load_sessions_history, h]

/-- Witness for `claim7_error_policy`: at metadata "ON", latex "OFF", a run
whose user message carries a list-valued content trips the internal error
path and still yields the empty transcript. -/
theorem claim7_error_policy_witness :
    load_sessions_history "ON" "OFF"
      (.decoded [⟨[⟨some "user", .listc [], none, none, none⟩], []⟩]) = [] :=
  (claim7_error_policy "ON" "OFF").2.2.2.2
    [⟨[⟨some "user", .listc [], none, none, none⟩], []⟩] rfl

/-! ## C8 - RunContent accumulation -/

/-- Claim C8: a RunContent chunk with string content appends the fragment to
the accumulation buffer, overwrites the trailing transcript entry with the
buffer's full new value - the history length is unchanged, no entry is
appended - and emits exactly one snapshot, whatever the metadata flag is. -/
theorem claim8_runcontent_step (metadataRadio : String) (st : LiveState) (ch : Chunk)
    (s : String) (hev : ch.event = "RunContent") (hc : ch.content = some s)
    (hne : st.history ≠ []) :
    stepL metadataRadio st ch
      = (⟨setLast st.history ⟨"assistant", st.buffer ++ s, none⟩, st.buffer ++ s⟩,
         [setLast st.history ⟨"assistant", st.buffer ++ s, none⟩])
    ∧ (stepL metadataRadio st ch).1.history.length = st.history.length := by
  have hmain : stepL metadataRadio st ch
      = (⟨setLast st.history ⟨"assistant", st.buffer ++ s, none⟩, st.buffer ++ s⟩,
         [setLast st.history ⟨"assistant", st.buffer ++ s, none⟩]) := by
    simp [stepL, hev, hc]
  refine ⟨hmain, ?_⟩
  rw [hmain]
  have hpos : 0 < st.history.length := List.length_pos.mpr hne
  simp only [setLast, List.length_append, List.length_dropLast, List.length_cons,
    List.length_nil]
  omega

/-- Witness for `claim8_runcontent_step`: fragment "y" arriving on buffer "x"
over a one-entry history, metadata OFF. -/
theorem claim8_runcontent_step_witness :
    stepL "OFF" ⟨[⟨"assistant", "x", none⟩], "x"⟩
        ⟨"RunContent", some "y", "", "", "", none, "r"⟩
      = (⟨setLast [⟨"assistant", "x", none⟩] ⟨"assistant", "x" ++ "y", none⟩, "x" ++ "y"⟩,
         [setLast [⟨"assistant", "x", none⟩] ⟨"assistant", "x" ++ "y", none⟩])
    ∧ (stepL "OFF" ⟨[⟨"assistant", "x", none⟩], "x"⟩
        ⟨"RunContent", some "y", "", "", "", none, "r"⟩).1.history.length
      = [(⟨"assistant", "x", none⟩ : PyChatMessage)].length :=
  claim8_runcontent_step "OFF" ⟨[⟨"assistant", "x", none⟩], "x"⟩
    ⟨"RunContent", some "y", "", "", "", none, "r"⟩ "y" rfl rfl (by decide)

/-! ## C10 - ToolCallCompleted without metrics -/

/-- Claim C10: on the streaming path with metadata "ON", a ToolCallCompleted
chunk whose tool carries no metrics appends an entry whose content is exactly
"**Execution time:** N/A\n" - the tool's result text is dropped because the
conditional expression selects between the whole concatenation and the bare
literal - followed by the fresh empty assistant entry. -/
theorem claim10_na_entry (st : LiveState) (ch : Chunk)
    (hev : ch.event = "ToolCallCompleted") (hm : ch.metrics = none) :
    (stepL "ON" st ch).1.history
      = replacePlaceholder st.history
        ++ [⟨"assistant", "**Execution time:** N/A\n", some TitleTag.chatCompleted⟩,
            ⟨"assistant", "", none⟩]
    ∧ toolCompletedContentL ch = "**Execution time:** N/A\n" := by
  have hcc : toolCompletedContentL ch = "**Execution time:** N/A\n" := by
    rw [toolCompletedContentL, hm]
  constructor
  · simp [stepL, hev, hcc]
  · exact hcc

/-- Witness for `claim10_na_entry`: a completed chunk with result text
"big result" and no metrics over a one-entry history. -/
theorem claim10_na_entry_witness :
    (stepL "ON" ⟨[⟨"assistant", "x", none⟩], "x"⟩
        ⟨"ToolCallCompleted", none, "t", "a", "big result", none, "r"⟩).1.history
      = replacePlaceholder [⟨"assistant", "x", none⟩]
        ++ [⟨"assistant", "**Execution time:** N/A\n", some TitleTag.chatCompleted⟩,
            ⟨"assistant", "", none⟩]
    ∧ toolCompletedContentL ⟨"ToolCallCompleted", none, "t", "a", "big result", none, "r"⟩
      = "**Execution time:** N/A\n" :=
  claim10_na_entry ⟨[⟨"assistant", "x", none⟩], "x"⟩
    ⟨"ToolCallCompleted", none, "t", "a", "big result", none, "r"⟩ rfl rfl

/-! ## C3 amended - process-wide cancellation state -/

/-- Claim C3 amended: the running-generation handle is process-wide module
state shared by all conversations, not per-conversation state; registering a
second generation overwrites the first, and a cancellation request always
cancels whichever conversation registered most recently - regardless of which
conversation the cancel was meant for - clearing the shared handle. -/
theorem claim3_amended_global_cancel (g : Globals) (c1 r1 c2 r2 : String) :
    stop_agent_running_stream (startGeneration c2 r2 (startGeneration c1 r1 g))
      = (⟨none, some r2⟩, some (c2, some r2)) := rfl

/-! ## C9 amended - per-message trailing-space pass -/

/-- Claim C9 amended: the math-delimiter normalization pass runs once per
processed message, before deduplication, each time appending one space to the
content of the then-most-recent assistant entry: a single-assistant record
gains exactly one trailing space, while an assistant entry followed by
further messages gains one space per following message, so entries other than
the last may also change. -/
theorem claim9_amended_latex_pass :
    (∀ a : String,
        load_sessions_history "OFF" "ON"
            (.decoded [⟨[⟨some "assistant", .strc a, none, none, none⟩], []⟩])
          = [⟨"assistant", a ++ " ", none⟩])
    ∧ load_sessions_history "OFF" "ON"
        (.decoded [⟨[⟨some "assistant", .strc "a", none, none, none⟩,
                     ⟨some "user", .strc "u", none, none, none⟩], []⟩])
      = [⟨"assistant", "a  ", none⟩, ⟨"user", "u", none⟩] := by
  constructor
  · intro a
    simp [load_sessions_history, processRuns, processMessages, msgStep, latexPass,
      addSpaceFirstAssistant, buildToolTimes, dedupe, dedupeGo, dkey]
  · decide

/-! ## C4 amended - error replaces only the trailing entry -/

lemma stepState_history_ne_nil (m : String) (st : LiveState) (ch : Chunk)
    (h : st.history ≠ []) : (stepState m st ch).history ≠ [] := by
  rw [stepState, stepL]
  repeat' split
  all_goals simp_all [setLast, replacePlaceholder]

lemma foldl_history_ne_nil (m : String) (cs : List Chunk) :
    ∀ st : LiveState, st.history ≠ [] → ((cs.foldl (stepState m) st).history ≠ []) := by
  induction cs with
  | nil => intro st h; exact h
  | cons c cs ih => intro st h; exact ih _ (stepState_history_ne_nil m st c h)

lemma liveRun_history_ne_nil (m u : String) (chunks : List Chunk) :
    (liveRun m u chunks).history ≠ [] := by
  rw [liveRun]
  exact foldl_history_ne_nil m chunks _ (by simp)

/-- Claim C4 amended: when the agent raises, the handler replaces exactly the
trailing transcript entry with the single generic error entry and yields a
final snapshot instead of propagating the exception; content held in the
trailing entry is discarded, while every earlier entry - including assistant
content finalized before a tool-call start - is preserved unchanged, and the
history is never empty so the replacement is well defined. -/
theorem claim4_amended_error_replace (m u : String) (chunks : List Chunk) :
    liveRunWithFailure m u chunks
      = (liveRun m u chunks).history.dropLast
          ++ [⟨"assistant", errorMessageText, none⟩]
    ∧ (liveRunWithFailure m u chunks).dropLast = (liveRun m u chunks).history.dropLast
    ∧ (liveRunWithFailure m u chunks).getLast? = some ⟨"assistant", errorMessageText, none⟩
    ∧ (liveRun m u chunks).history ≠ [] := by
  refine ⟨rfl, ?_, ?_, liveRun_history_ne_nil m u chunks⟩
  · rw [liveRunWithFailure, errorStepHistory, setLast, List.dropLast_concat]
  · rw [liveRunWithFailure, errorStepHistory, setLast, List.getLast?_concat]

/-! ## C6 amended - where user messages are and are not re-emitted -/

lemma nsMsgStep_filter_user (m : String) (hist : List PyChatMessage) (x : NSMessage) :
    (nsMsgStep m hist x).filter (fun e => decide (e.role = "user"))
      = hist.filter (fun e => decide (e.role = "user")) := by
  rw [nsMsgStep]
  repeat' split
  all_goals simp [List.filter_append]

lemma foldl_ns_filter_user (m : String) (msgs : List NSMessage) :
    ∀ hist : List PyChatMessage,
      ((msgs.foldl (nsMsgStep m) hist).filter (fun e => decide (e.role = "user")))
        = hist.filter (fun e => decide (e.role = "user")) := by
  induction msgs with
  | nil => intro hist; rfl
  | cons x xs ih =>
    intro hist
    rw [List.foldl_cons, ih, nsMsgStep_filter_user]

/-- Claim C6 amended: `load_sessions_history` does re-emit stored user
messages, so reconstructing the example record with metadata OFF yields
[user:"hi", assistant:"found it"]; the claimed exclusion of user turns holds
only for the non-streaming response path of `get_response`, which iterates
messages strictly after the last user message and appends only
assistant-role entries, so it adds no user entry to the transcript. -/
theorem claim6_amended_user_emission :
    load_sessions_history "OFF" "OFF" (.decoded [c6Record])
      = [⟨"user", "hi", none⟩, ⟨"assistant", "found it", none⟩]
    ∧ ∀ (m : String) (hist : List PyChatMessage) (msgs : List NSMessage),
        (nonStreamRun m hist msgs).filter (fun e => decide (e.role = "user"))
          = (replacePlaceholder hist).filter (fun e => decide (e.role = "user")) := by
  constructor
  · decide
  · intro m hist msgs
    rw [nonStreamRun]
    exact foldl_ns_filter_user m (afterLastUser msgs) (replacePlaceholder hist)

/-! ## C1 amended - equivalence holds for tool-free runs -/

/-- A RunContent chunk carrying the textual fragment `s`. -/
def contentChunk (s : String) : Chunk := ⟨"RunContent", some s, "", "", "", none, "frag"⟩

/-- Concatenation of a list of fragments. -/
def strConcat (l : List String) : String := l.foldr (fun a b => a ++ b) ""

lemma stepState_contentChunk (m : String) (st : LiveState) (f : String) :
    stepState m st (contentChunk f)
      = ⟨setLast st.history ⟨"assistant", st.buffer ++ f, none⟩, st.buffer ++ f⟩ := by
  simp [stepState, stepL, contentChunk]

lemma contentFold (m : String) (rest : List String) :
    ∀ (pre : List PyChatMessage) (buf : String),
      (rest.map contentChunk).foldl (stepState m) ⟨pre ++ [⟨"assistant", buf, none⟩], buf⟩
        = ⟨pre ++ [⟨"assistant", buf ++ strConcat rest, none⟩], buf ++ strConcat rest⟩ := by
  induction rest with
  | nil =>
    intro pre buf
    simp [strConcat]
  | cons f fs ih =>
    intro pre buf
    rw [List.map_cons, List.foldl_cons, stepState_contentChunk, setLast,
      List.dropLast_concat, ih]
    have hcat : strConcat (f :: fs) = f ++ strConcat fs := rfl
    rw [hcat, ← String.append_assoc]

/-- Claim C1 amended: the live/replay equivalence does hold for tool-free
runs: for a stored record [user u, assistant a] with no tool messages and
latex OFF, the batch reconstruction equals the final live streaming
transcript fed the user turn and any nonempty fragment sequence
concatenating to a, for any metadata flag settings on either path.  With
tool messages the equivalence fails (see the counterexample): the two paths
format the ToolCallCompleted entry differently (".3f" without leading
newline versus ".4f" with leading newline and an extra space) and the live
path keeps the empty assistant entry left by placeholder replacement. -/
theorem claim1_amended_equiv (u a m1 m2 : String) (fs : List String)
    (hfs : fs ≠ []) (hcat : strConcat fs = a) :
    load_sessions_history m1 "OFF"
        (.decoded [⟨[⟨some "user", .strc u, none, none, none⟩,
                     ⟨some "assistant", .strc a, none, none, none⟩], []⟩])
      = (liveRun m2 u (fs.map contentChunk)).history := by
  obtain ⟨f, rest, rfl⟩ := List.exists_cons_of_ne_nil hfs
  have hlhs : load_sessions_history m1 "OFF"
      (.decoded [⟨[⟨some "user", .strc u, none, none, none⟩,
                   ⟨some "assistant", .strc a, none, none, none⟩], []⟩])
      = [⟨"user", u, none⟩, ⟨"assistant", a, none⟩] := by
    simp [load_sessions_history, processRuns, processMessages, msgStep, latexPass,
      buildToolTimes, dedupe, dedupeGo, dkey]
  have hstep1 : stepState m2
      ⟨[⟨"user", u, none⟩, ⟨"assistant", placeholderText, none⟩], ""⟩ (contentChunk f)
      = ⟨[⟨"user", u, none⟩] ++ [⟨"assistant", "" ++ f, none⟩], "" ++ f⟩ := by
    rw [stepState_contentChunk]
    rfl
  rw [hlhs, liveRun, List.map_cons, List.foldl_cons, hstep1,
    contentFold m2 rest [⟨"user", u, none⟩] ("" ++ f)]
  have ha : ("" ++ f) ++ strConcat rest = a := by
    rw [String.empty_append, ← hcat]
    rfl
  rw [ha]
  rfl

/-- Witness for `claim1_amended_equiv`: record [user "hi", assistant "ok"],
fragments ["o", "k"], both flags "ON". -/
theorem claim1_amended_equiv_witness :
    load_sessions_history "ON" "OFF"
        (.decoded [⟨[⟨some "user", .strc "hi", none, none, none⟩,
                     ⟨some "assistant", .strc "ok", none, none, none⟩], []⟩])
      = (liveRun "ON" "hi" (["o", "k"].map contentChunk)).history :=
  claim1_amended_equiv "hi" "ok" "ON" "ON" ["o", "k"] (by decide) rfl

end OpenLLMWebchat
